import Mathlib

/-!
Verification of the compression core and path utility of the cargo-deb
repository, shallowly embedded in Lean 4.

Source files embedded here:
- src/compress.rs : the Compressed result type, its Deref view and
  extension accessor, and the two compile-time-selected implementations
  of xz_or_gz (zopfli/gzip default path, xz2/LZMA optional path).
- src/util.rs : fname_from_path, built on the Rust function Path::file_name.

Byte buffers (Rust Vec of u8 / byte slices) are modelled as List Nat.
The third-party encoders (zopfli, xz2) are external to the repository, so
the LZMA encoder is abstracted as a record of the three external calls the
source makes (stream construction, write_all, finish), and the zopfli call
is abstracted as a function argument; the control flow of the repository itself
around those calls is embedded exactly.
-/

namespace CargoDeb

/-- The error type CDResult / CargoDebError lives in crate::error (error.rs
is not among the provided sources). Modelled from the spec: the error
taxonomy of the spec plus the two constructors compress.rs names explicitly,
CargoDebError::LzmaCompressionError and CargoDebError::Io. Error payloads
(an lzma stream error, an std io::Error) are abstracted as Nat codes. -/
inductive CargoDebError where
  | LzmaCompressionError (e : Nat)
  | Io (e : Nat)
  deriving DecidableEq, Repr

/-- The kind (constructor tag) of an error, the information by which a
caller can tell the failure points apart. -/
inductive ErrorKind where
  | lzmaCompression
  | io
  deriving DecidableEq, Repr

def CargoDebError.kind : CargoDebError → ErrorKind
  | .LzmaCompressionError _ => .lzmaCompression
  | .Io _ => .io

/-- pub enum Compressed { Gz(Vec of u8), Xz(Vec of u8) } -/
inductive Compressed where
  | Gz (data : List Nat)
  | Xz (data : List Nat)
  deriving DecidableEq, Repr

/-- impl ops::Deref for Compressed: both variants expose their payload. -/
def Compressed.deref : Compressed → List Nat
  | .Gz data => data
  | .Xz data => data

/-- Compressed::extension. -/
def Compressed.extension : Compressed → String
  | .Gz _ => "gz"
  | .Xz _ => "xz"

/-- The gzip (default, cfg(not(feature = "lzma"))) implementation of
xz_or_gz. The external call zopfli::compress together with the From conversion of the question
mark operator into CargoDebError is abstracted as the
function argument: on .ok it yields the bytes the call wrote into the
output buffer, on .error the already-converted CargoDebError. The
capacity hint (data.len() >> 1) is unobservable and the fast flag is the
unused parameter _fast, exactly as in the source. -/
def xz_or_gz_gz (zopfli : List Nat → Except CargoDebError (List Nat))
    (data : List Nat) (_fast : Bool) : Except CargoDebError Compressed :=
  match zopfli data with
  | .error e => .error e
  | .ok compressed => .ok (Compressed.Gz compressed)

/-- The three external xz2 operations the LZMA path performs, abstracted:
mkEncoder (MtStreamBuilder::new().threads(t).preset(p).encoder()) takes
the configured thread count and preset and yields an encoder handle or an
lzma error code; writeAll (writer.write_all(data)) takes the writer state
and the input and yields the new writer state or an io error code; finish
(writer.finish()) yields the completed compressed bytes or an io error
code. Writer and encoder states are abstracted as Nat handles. -/
structure XzBackend where
  mkEncoder : Nat → Nat → Except Nat Nat
  writeAll : Nat → List Nat → Except Nat Nat
  finish : Nat → Except Nat (List Nat)

/-- The LZMA (cfg(feature = "lzma")) implementation of xz_or_gz. The
ambient value of num_cpus::get() is passed as ncpus; the source casts it
with "as u32", embedded as % 2 ^ 32. The preset is 1 when fast, else 6.
The error of each external call is wrapped exactly as in the source:
construction into CargoDebError::LzmaCompressionError, write_all and
finish both into CargoDebError::Io. -/
def xz_or_gz_lzma (B : XzBackend) (ncpus : Nat) (data : List Nat)
    (fast : Bool) : Except CargoDebError Compressed :=
  match B.mkEncoder (ncpus % 2 ^ 32) (if fast then 1 else 6) with
  | .error e => .error (CargoDebError.LzmaCompressionError e)
  | .ok encoder =>
    match B.writeAll encoder data with
    | .error e => .error (CargoDebError.Io e)
    | .ok writer =>
      match B.finish writer with
      | .error e => .error (CargoDebError.Io e)
      | .ok compressed => .ok (Compressed.Xz compressed)

/-! ### src/util.rs : fname_from_path

fname_from_path calls Path::file_name().unwrap().to_string_lossy().
Path::file_name is Rust standard-library behaviour on Unix paths:
the path is parsed into components (separator runs collapse, "." pieces
vanish except a leading one, ".." is a ParentDir component, a leading
separator is the root), and file_name is the last component when it is a
Normal one, None otherwise (empty path, root, trailing "..").
We embed that parse over the character list of the path. -/

/-- A component of a parsed path, as in std::path::Component (Prefix
does not occur on Unix). -/
inductive Component where
  | rootDir
  | curDir
  | parentDir
  | normal (s : List Char)
  deriving DecidableEq, Repr

/-- Split a character list on the separator. Always returns at least one
(possibly empty) piece, one more piece per separator. -/
def splitOnSlash : List Char → List (List Char)
  | [] => [[]]
  | c :: cs =>
    if c = '/' then [] :: splitOnSlash cs
    else
      match splitOnSlash cs with
      | [] => [[c]]
      | p :: ps => (c :: p) :: ps

/-- Classify one non-first piece of a split path: empty pieces (separator
runs, trailing separators) and "." pieces produce no component. -/
def pieceComponent (piece : List Char) : Option Component :=
  if piece = [] ∨ piece = ['.'] then none
  else if piece = ['.', '.'] then some Component.parentDir
  else some (Component.normal piece)

/-- Parse a Unix path into its components. The first piece is special: an
empty first piece of a nonempty path means the path began with the
separator (the root directory), and a leading "." of a relative path is
kept as a CurDir component. -/
def components (path : List Char) : List Component :=
  match splitOnSlash path with
  | [] => []
  | first :: rest =>
    (if first = [] then (if path = [] then [] else [Component.rootDir])
     else if first = ['.'] then [Component.curDir]
     else if first = ['.', '.'] then [Component.parentDir]
     else [Component.normal first])
    ++ rest.filterMap pieceComponent

/-- Path::file_name: the last component when it is a Normal one. -/
def file_name (path : List Char) : Option (List Char) :=
  match (components path).getLast? with
  | some (Component.normal s) => some s
  | _ => none

/-- OsStr::to_string_lossy: the identity on well-formed (valid UTF-8)
paths, which is what the character-list model represents. -/
def to_string_lossy (s : List Char) : List Char := s

/-- fname_from_path, src/util.rs lines 7-9. The .unwrap() panics when
file_name is None; the panic is modelled as the none result. -/
def fname_from_path (path : List Char) : Option (List Char) :=
  (file_name path).map to_string_lossy

/-! ### Concrete backends used as test vectors -/

/-- A backend whose stream construction fails with code 5. -/
def constructionFailBackend : XzBackend :=
  ⟨fun _ _ => Except.error 5, fun e _ => Except.ok e, fun _ => Except.ok []⟩

/-- A backend whose write step fails with code 7. -/
def writeFailBackend : XzBackend :=
  ⟨fun _ _ => Except.ok 0, fun _ _ => Except.error 7, fun _ => Except.ok []⟩

/-- A backend whose finalize step fails with code 9. -/
def finishFailBackend : XzBackend :=
  ⟨fun _ _ => Except.ok 0, fun e _ => Except.ok e, fun _ => Except.error 9⟩

/-- A backend on which every step succeeds, producing bytes [4, 2]. -/
def allOkBackend : XzBackend :=
  ⟨fun _ _ => Except.ok 0, fun e _ => Except.ok e, fun _ => Except.ok [4, 2]⟩

/-- A backend whose construction step reports back the thread count it was
handed. -/
def threadSpyBackend : XzBackend :=
  ⟨fun threads _ => Except.error threads, fun e _ => Except.ok e, fun _ => Except.ok []⟩

/-! ### Helper lemmas about the path parse -/

theorem splitOnSlash_ne_nil (p : List Char) : splitOnSlash p ≠ [] := by
  cases p with
  | nil => simp [splitOnSlash]
  | cons c cs =>
    simp only [splitOnSlash]
    split
    · simp
    · split <;> simp

theorem splitOnSlash_exists_cons (p : List Char) :
    ∃ q qs, splitOnSlash p = q :: qs := by
  cases h : splitOnSlash p with
  | nil => exact absurd h (splitOnSlash_ne_nil p)
  | cons q qs => exact ⟨q, qs, rfl⟩

theorem splitOnSlash_append_slash (p : List Char) :
    splitOnSlash (p ++ ['/']) = splitOnSlash p ++ [[]] := by
  induction p with
  | nil => rfl
  | cons c cs ih =>
    simp only [List.cons_append, splitOnSlash]
    by_cases hc : c = '/'
    · simp [hc, ih]
    · obtain ⟨q, qs, hq⟩ := splitOnSlash_exists_cons cs
      simp [if_neg hc, ih, hq]

theorem components_append_slash (p : List Char) (hp : p ≠ []) :
    components (p ++ ['/']) = components p := by
  unfold components
  rw [splitOnSlash_append_slash]
  obtain ⟨q, qs, hq⟩ := splitOnSlash_exists_cons p
  rw [hq]
  have hpc : pieceComponent [] = none := rfl
  simp [List.filterMap_append, hpc, hp]

theorem file_name_append_slash (p : List Char) :
    file_name (p ++ ['/']) = file_name p := by
  by_cases hp : p = []
  · subst hp; rfl
  · unfold file_name; rw [components_append_slash p hp]

/-! ### The claims -/

/-- C1: for every Compressed value, extension() returns "gz" iff the value
is the Gz variant and "xz" iff it is the Xz variant; it always returns one
of the two strings and never both for one value. -/
theorem extension_iff_variant (c : Compressed) :
    (c.extension = "gz" ↔ ∃ d, c = Compressed.Gz d) ∧
    (c.extension = "xz" ↔ ∃ d, c = Compressed.Xz d) ∧
    (c.extension = "gz" ∨ c.extension = "xz") ∧
    ¬(c.extension = "gz" ∧ c.extension = "xz") := by
  cases c <;> simp [Compressed.extension]

/-- Evaluation of extension_iff_variant at concrete values of both
variants. -/
theorem extension_iff_variant_witness :
    (Compressed.Gz [3]).extension = "gz" ∧ (Compressed.Xz [3]).extension = "xz" :=
  ⟨(extension_iff_variant (Compressed.Gz [3])).1.mpr ⟨[3], rfl⟩,
   (extension_iff_variant (Compressed.Xz [3])).2.1.mpr ⟨[3], rfl⟩⟩

/-- C2 counterexample: a run that fails at the write step and a run that
fails at the finalize step surface errors of the same kind (both
CargoDebError::Io), so those two failure points are not distinguishable
by the error kind returned to the caller. -/
theorem write_and_finish_failures_share_kind :
    xz_or_gz_lzma writeFailBackend 4 [1, 2, 3] false
      = Except.error (CargoDebError.Io 7) ∧
    xz_or_gz_lzma finishFailBackend 4 [1, 2, 3] false
      = Except.error (CargoDebError.Io 9) ∧
    (CargoDebError.Io 7).kind = (CargoDebError.Io 9).kind :=
  ⟨rfl, rfl, rfl⟩

/-- C2 (amended): stream-construction failure is wrapped as
LzmaCompressionError, whose kind differs from the Io kind, while write
failure and finalize failure are both wrapped as Io; hence construction
failures are distinguishable from the other two failure points, but write
and finalize failures share one kind. -/
theorem lzma_failure_kinds (B : XzBackend) (ncpus : Nat) (data : List Nat)
    (fast : Bool) :
    (∀ e, B.mkEncoder (ncpus % 2 ^ 32) (if fast then 1 else 6) = Except.error e →
      xz_or_gz_lzma B ncpus data fast
        = Except.error (CargoDebError.LzmaCompressionError e)) ∧
    (∀ enc e, B.mkEncoder (ncpus % 2 ^ 32) (if fast then 1 else 6) = Except.ok enc →
      B.writeAll enc data = Except.error e →
      xz_or_gz_lzma B ncpus data fast = Except.error (CargoDebError.Io e)) ∧
    (∀ enc w e, B.mkEncoder (ncpus % 2 ^ 32) (if fast then 1 else 6) = Except.ok enc →
      B.writeAll enc data = Except.ok w → B.finish w = Except.error e →
      xz_or_gz_lzma B ncpus data fast = Except.error (CargoDebError.Io e)) ∧
    (∀ e e1, (CargoDebError.LzmaCompressionError e).kind ≠ (CargoDebError.Io e1).kind) ∧
    (∀ e e1, (CargoDebError.Io e).kind = (CargoDebError.Io e1).kind) := by
  refine ⟨?_, ?_, ?_, fun e e1 => by simp [CargoDebError.kind], fun e e1 => rfl⟩
  · intro e h
    unfold xz_or_gz_lzma
    rw [h]
  · intro enc e h1 h2
    unfold xz_or_gz_lzma
    rw [h1]
    simp only []
    rw [h2]
  · intro enc w e h1 h2 h3
    unfold xz_or_gz_lzma
    rw [h1]
    simp only []
    rw [h2]
    simp only []
    rw [h3]

/-- Evaluation of lzma_failure_kinds on the backend whose construction
fails with code 5. -/
theorem lzma_failure_kinds_witness :
    xz_or_gz_lzma constructionFailBackend 4 [1] true
      = Except.error (CargoDebError.LzmaCompressionError 5) :=
  (lzma_failure_kinds constructionFailBackend 4 [1] true).1 5 rfl

/-- C3: the preset handed to the encoder construction is exactly 1 when
fast is true and exactly 6 when fast is false, for every input buffer and
CPU count: with a backend whose construction step reports back the preset
it received, the call surfaces that preset. -/
theorem lzma_preset_value (w : Nat → List Nat → Except Nat Nat)
    (f : Nat → Except Nat (List Nat)) (ncpus : Nat) (data : List Nat)
    (fast : Bool) :
    xz_or_gz_lzma ⟨fun _ preset => Except.error preset, w, f⟩ ncpus data fast
      = Except.error (CargoDebError.LzmaCompressionError (if fast then 1 else 6)) ∧
    xz_or_gz_lzma ⟨fun _ preset => Except.error preset, w, f⟩ ncpus data true
      = Except.error (CargoDebError.LzmaCompressionError 1) ∧
    xz_or_gz_lzma ⟨fun _ preset => Except.error preset, w, f⟩ ncpus data false
      = Except.error (CargoDebError.LzmaCompressionError 6) :=
  ⟨rfl, rfl, rfl⟩

/-- Evaluation of lzma_preset_value at concrete arguments: fast gives
preset 1. -/
theorem lzma_preset_value_witness :
    xz_or_gz_lzma ⟨fun _ preset => Except.error preset, fun e _ => Except.ok e,
        fun _ => Except.ok []⟩ 4 [9] true
      = Except.error (CargoDebError.LzmaCompressionError 1) :=
  (lzma_preset_value (fun e _ => Except.ok e) (fun _ => Except.ok []) 4 [9] true).2.1

/-- C4: when the encoder stream construction fails, the call returns the
LzmaCompressionError kind immediately, and the result does not depend on
the write or finalize behaviour at all, so neither later step is
attempted. -/
theorem lzma_construction_failure_short_circuits (B B1 : XzBackend)
    (hmk : B.mkEncoder = B1.mkEncoder)
    (ncpus : Nat) (data : List Nat) (fast : Bool) (e : Nat)
    (h : B.mkEncoder (ncpus % 2 ^ 32) (if fast then 1 else 6) = Except.error e) :
    xz_or_gz_lzma B ncpus data fast
      = Except.error (CargoDebError.LzmaCompressionError e) ∧
    (CargoDebError.LzmaCompressionError e).kind = ErrorKind.lzmaCompression ∧
    xz_or_gz_lzma B ncpus data fast = xz_or_gz_lzma B1 ncpus data fast := by
  have h1 : B1.mkEncoder (ncpus % 2 ^ 32) (if fast then 1 else 6) = Except.error e := by
    rw [← hmk]; exact h
  unfold xz_or_gz_lzma
  rw [h, h1]
  exact ⟨rfl, rfl, rfl⟩

/-- Evaluation of lzma_construction_failure_short_circuits at a concrete
failing construction. -/
theorem lzma_construction_failure_short_circuits_witness :
    xz_or_gz_lzma constructionFailBackend 8 [0, 1] true
      = Except.error (CargoDebError.LzmaCompressionError 5) :=
  (lzma_construction_failure_short_circuits constructionFailBackend
    constructionFailBackend rfl 8 [0, 1] true 5 rfl).1

/-- C5: a successful result of the gzip implementation is always the Gz
variant and a successful result of the LZMA implementation is always the
Xz variant, for every backend behaviour, input and fast flag. -/
theorem variant_fixed_by_backend :
    (∀ zopfli data fast c, xz_or_gz_gz zopfli data fast = Except.ok c →
      ∃ b, c = Compressed.Gz b) ∧
    (∀ B ncpus data fast c, xz_or_gz_lzma B ncpus data fast = Except.ok c →
      ∃ b, c = Compressed.Xz b) := by
  constructor
  · intro zopfli data fast c h
    unfold xz_or_gz_gz at h
    cases hz : zopfli data with
    | error e => rw [hz] at h; cases h
    | ok out =>
      rw [hz] at h
      exact ⟨out, (Except.ok.injEq _ _ ▸ h).symm⟩
  · intro B ncpus data fast c h
    unfold xz_or_gz_lzma at h
    split at h
    · cases h
    · split at h
      · cases h
      · split at h
        · cases h
        · exact ⟨_, (Except.ok.injEq _ _ ▸ h).symm⟩

/-- Evaluation of variant_fixed_by_backend on concrete successful runs of
both implementations. -/
theorem variant_fixed_by_backend_witness :
    (∃ b, Compressed.Gz [1, 2] = Compressed.Gz b) ∧
    (∃ b, Compressed.Xz [4, 2] = Compressed.Xz b) :=
  ⟨variant_fixed_by_backend.1 (fun d => Except.ok d) [1, 2] true
      (Compressed.Gz [1, 2]) rfl,
   variant_fixed_by_backend.2 allOkBackend 4 [1, 2] false
      (Compressed.Xz [4, 2]) rfl⟩

/-- C6: on the gzip backend the result is independent of the fast flag:
any two flag values give identical results (same variant, same bytes),
since the parameter is the unused _fast. -/
theorem gz_ignores_fast (zopfli : List Nat → Except CargoDebError (List Nat))
    (data : List Nat) (fast1 fast2 : Bool) :
    xz_or_gz_gz zopfli data fast1 = xz_or_gz_gz zopfli data fast2 := rfl

/-- Evaluation of gz_ignores_fast at a concrete compressor and buffer. -/
theorem gz_ignores_fast_witness :
    xz_or_gz_gz (fun d => Except.ok d) [5] true
      = xz_or_gz_gz (fun d => Except.ok d) [5] false :=
  gz_ignores_fast (fun d => Except.ok d) [5] true false

/-- C7 counterexample: with 2 ^ 32 logical CPUs the thread count handed to
the encoder construction is 0, not 2 ^ 32, because num_cpus::get() is
cast with "as u32" and so truncates modulo 2 ^ 32. -/
theorem lzma_threads_truncate :
    xz_or_gz_lzma threadSpyBackend (2 ^ 32) [] false
      = Except.error (CargoDebError.LzmaCompressionError 0) ∧ 0 ≠ 2 ^ 32 :=
  ⟨rfl, by decide⟩

/-- C7 (amended): the worker thread count configured on the encoder is
the CPU count reduced modulo 2 ^ 32 (the u32 cast of num_cpus::get()),
which equals the CPU count whenever it is below 2 ^ 32; it depends only
on the ambient CPU count, never on the caller-supplied buffer or flag. -/
theorem lzma_threads_from_ncpus (w : Nat → List Nat → Except Nat Nat)
    (f : Nat → Except Nat (List Nat)) (ncpus : Nat) (data : List Nat)
    (fast : Bool) :
    xz_or_gz_lzma ⟨fun threads _ => Except.error threads, w, f⟩ ncpus data fast
      = Except.error (CargoDebError.LzmaCompressionError (ncpus % 2 ^ 32)) ∧
    (ncpus < 2 ^ 32 → ncpus % 2 ^ 32 = ncpus) :=
  ⟨rfl, fun h => Nat.mod_eq_of_lt h⟩

/-- Evaluation of lzma_threads_from_ncpus at 8 CPUs. -/
theorem lzma_threads_from_ncpus_witness :
    xz_or_gz_lzma ⟨fun threads _ => Except.error threads, fun e _ => Except.ok e,
        fun _ => Except.ok []⟩ 8 [1] true
      = Except.error (CargoDebError.LzmaCompressionError (8 % 2 ^ 32)) ∧
    8 % 2 ^ 32 = 8 :=
  ⟨(lzma_threads_from_ncpus (fun e _ => Except.ok e) (fun _ => Except.ok [])
      8 [1] true).1,
   (lzma_threads_from_ncpus (fun e _ => Except.ok e) (fun _ => Except.ok [])
      8 [1] true).2 (by decide)⟩

/-- C8: the byte view obtained by dereference equals the stored payload
for both variants, and reading it is pure: it is a function of the value,
so reading twice yields equal bytes and cannot change the value. -/
theorem deref_transparent :
    (∀ d, (Compressed.Gz d).deref = d ∧ (Compressed.Xz d).deref = d) ∧
    (∀ c : Compressed, c.deref = c.deref) :=
  ⟨fun _ => ⟨rfl, rfl⟩, fun _ => rfl⟩

/-- Evaluation of deref_transparent at a concrete payload. -/
theorem deref_transparent_witness :
    (Compressed.Gz [1]).deref = [1] ∧ (Compressed.Xz [1]).deref = [1] :=
  ⟨(deref_transparent.1 [1]).1, (deref_transparent.1 [1]).2⟩

/-- C9: the gzip path hands the input buffer unmodified to the compressor
and wraps the bytes the compressor produced unmodified, so for any
compressor/decompressor pair with the gzip round-trip property, a
successful result decompresses back to the original input for every
non-empty buffer. -/
theorem gz_roundtrip (zopfli : List Nat → Except CargoDebError (List Nat))
    (decomp : List Nat → Option (List Nat))
    (hround : ∀ d out, d ≠ [] → zopfli d = Except.ok out → decomp out = some d)
    (data : List Nat) (fast : Bool) (c : Compressed)
    (hne : data ≠ []) (hok : xz_or_gz_gz zopfli data fast = Except.ok c) :
    decomp c.deref = some data := by
  unfold xz_or_gz_gz at hok
  cases hz : zopfli data with
  | error e => rw [hz] at hok; cases hok
  | ok out =>
    rw [hz] at hok
    have hc : c = Compressed.Gz out := (Except.ok.injEq _ _ ▸ hok).symm
    rw [hc]
    exact hround data out hne hz

/-- Evaluation of gz_roundtrip with the identity compressor pair on a
concrete buffer. -/
theorem gz_roundtrip_witness :
    some (Compressed.Gz [1, 2, 3]).deref = some [1, 2, 3] :=
  gz_roundtrip (fun d => Except.ok d) (fun d => some d)
    (fun _ _ _ h => by cases h; rfl) [1, 2, 3] true
    (Compressed.Gz [1, 2, 3]) (by decide) rfl

/-- C10: fname_from_path has no result (the unwrap panics) exactly when
the path has no final file-name component, e.g. the empty path, the bare
root, or a path ending in "..", rather than producing an error value or
an empty name; for every path that does have a final component it returns
that component, and a trailing separator makes no difference. -/
theorem fname_from_path_spec :
    fname_from_path [] = none ∧
    fname_from_path ['/'] = none ∧
    fname_from_path ['a', '/', '.', '.'] = none ∧
    (∀ p, file_name p = none → fname_from_path p = none) ∧
    (∀ p s, file_name p = some s → fname_from_path p = some s) ∧
    (∀ p, fname_from_path (p ++ ['/']) = fname_from_path p) ∧
    fname_from_path ['d', 'i', 'r', '/'] = some ['d', 'i', 'r'] := by
  refine ⟨by decide, by decide, by decide, ?_, ?_, ?_, by decide⟩
  · intro p h
    simp [fname_from_path, h]
  · intro p s h
    simp [fname_from_path, h, to_string_lossy]
  · intro p
    simp [fname_from_path, file_name_append_slash]

/-- Evaluation of fname_from_path_spec on a concrete two-letter name. -/
theorem fname_from_path_spec_witness :
    fname_from_path ['a', 'b'] = some ['a', 'b'] :=
  fname_from_path_spec.2.2.2.2.1 ['a', 'b'] ['a', 'b'] (by decide)

end CargoDeb
